import Mathlib

/-!
Formal model of the poly-kalshi-arb Up/Down arbitrage bot.

The definitions below are shallow embeddings of the Rust sources
`src/bin/updown_bot.rs` and `src/updown_scanner.rs`.  Prices, sizes and
dollar amounts (Rust `f64`) are modelled as rationals; decimal strings
already parsed by serde are modelled by their parse outcome
(`Option` of the parsed value).  Times (`Instant` / Unix seconds) are
modelled as natural numbers.
-/

namespace UpDownBot

/-- Constant `ARB_THRESHOLD` from `updown_bot.rs`: sum of YES + NO must be below
this for execution (0.995). -/
def ARB_THRESHOLD : ℚ := 995 / 1000

/-- Constant `MIN_TRADE_SIZE` from `updown_bot.rs`: minimum size to trade, in dollars. -/
def MIN_TRADE_SIZE : ℚ := 1

/-- Constant `MAX_TRADE_SIZE` from `updown_bot.rs`: maximum size to trade per leg. -/
def MAX_TRADE_SIZE : ℚ := 50

/-- Constant `PRELOAD_BUFFER_SECS` from `updown_bot.rs`. -/
def PRELOAD_BUFFER_SECS : Nat := 60

/-- Rust `struct ActiveUpDownMarket` from `updown_scanner.rs`: an active market
with its two outcome-token ids. -/
structure ActiveUpDownMarket where
  slug : String
  asset : String
  question : String
  yes_token : String
  no_token : String
  end_timestamp : Nat
deriving Repr, DecidableEq

/-- Rust `struct MarketState` from `updown_bot.rs`: mutable market state with
current best-ask prices and sizes for both sides. -/
structure MarketState where
  asset : String
  question : String
  yes_token : String
  no_token : String
  yes_price : ℚ
  no_price : ℚ
  yes_size : ℚ
  no_size : ℚ
  last_update : Nat
deriving Repr, DecidableEq

/-- Method `MarketState::new` from `updown_bot.rs`: fresh state for a discovered
market, with zero prices and sizes.  `Instant::now()` is passed in as `now`. -/
def MarketState.new (market : ActiveUpDownMarket) (now : Nat) : MarketState :=
  { asset := market.asset
    question := market.question
    yes_token := market.yes_token
    no_token := market.no_token
    yes_price := 0
    no_price := 0
    yes_size := 0
    no_size := 0
    last_update := now }

/-- Method `MarketState::has_arb` from `updown_bot.rs`:
returns false when either price is `<= 0.0`, otherwise tests
`yes_price + no_price < ARB_THRESHOLD`. -/
def MarketState.has_arb (s : MarketState) : Bool :=
  if s.yes_price ≤ 0 ∨ s.no_price ≤ 0 then false
  else decide (s.yes_price + s.no_price < ARB_THRESHOLD)

/-- Method `MarketState::profit_cents` from `updown_bot.rs`. -/
def MarketState.profit_cents (s : MarketState) : ℚ :=
  if s.yes_price ≤ 0 ∨ s.no_price ≤ 0 then 0
  else (1 - (s.yes_price + s.no_price)) * 100

/-- Method `MarketState::trade_size` from `updown_bot.rs`:
`available.min(MAX_TRADE_SIZE).max(MIN_TRADE_SIZE)` where `available`
is the smaller of the two sides' sizes. -/
def MarketState.trade_size (s : MarketState) : ℚ :=
  let available := min s.yes_size s.no_size
  max (min available MAX_TRADE_SIZE) MIN_TRADE_SIZE

/-- C1: `has_arb` is true iff both prices are strictly positive and their sum
is strictly below `ARB_THRESHOLD`.  Stated for every market state, hence in
particular for every price pair in `[0,1]²`. -/
theorem has_arb_iff_positive_and_below_threshold (s : MarketState) :
    s.has_arb = true ↔
      0 < s.yes_price ∧ 0 < s.no_price ∧
        s.yes_price + s.no_price < ARB_THRESHOLD := by
  unfold MarketState.has_arb
  split_ifs with h
  · simp only [Bool.false_eq_true, false_iff]
    rintro ⟨hy, hn, -⟩
    rcases h with h | h <;> linarith
  · push_neg at h
    simp [h.1, h.2]

/-- Witness for C1 at the spec's scenario (yes 0.28, no 0.66): `has_arb`
is true there. -/
theorem has_arb_iff_witness :
    (MarketState.mk "btc" "q" "ty" "tn" (28/100) (66/100) 40 60 0).has_arb
      = true := by
  refine (has_arb_iff_positive_and_below_threshold _).mpr ?_
  refine ⟨by norm_num, by norm_num, ?_⟩
  unfold ARB_THRESHOLD
  norm_num

/-- C2: `trade_size` is the smaller of the two sides' sizes clamped into
`[MIN_TRADE_SIZE, MAX_TRADE_SIZE]`, and in particular it always lies in
that interval, whatever the available liquidity. -/
theorem trade_size_clamped (s : MarketState) :
    MIN_TRADE_SIZE ≤ s.trade_size ∧
    s.trade_size ≤ MAX_TRADE_SIZE ∧
    s.trade_size
      = min (max (min s.yes_size s.no_size) MIN_TRADE_SIZE) MAX_TRADE_SIZE := by
  have hmm : MIN_TRADE_SIZE ≤ MAX_TRADE_SIZE := by
    unfold MIN_TRADE_SIZE MAX_TRADE_SIZE; norm_num
  unfold MarketState.trade_size
  refine ⟨le_max_right _ _, max_le (min_le_right _ _) hmm, ?_⟩
  show max (min (min s.yes_size s.no_size) MAX_TRADE_SIZE) MIN_TRADE_SIZE
      = min (max (min s.yes_size s.no_size) MIN_TRADE_SIZE) MAX_TRADE_SIZE
  simp only [min_def, max_def]
  split_ifs <;> linarith

/-- Witness for C2 at the spec's scenario (sizes 40 and 60, bounds [1, 50]):
`trade_size` returns 40 and lies in the configured interval. -/
theorem trade_size_clamped_witness :
    MIN_TRADE_SIZE
        ≤ (MarketState.mk "btc" "q" "ty" "tn" (28/100) (66/100) 40 60 0).trade_size
      ∧ (MarketState.mk "btc" "q" "ty" "tn" (28/100) (66/100) 40 60 0).trade_size
        ≤ MAX_TRADE_SIZE :=
  ⟨(trade_size_clamped _).1, (trade_size_clamped _).2.1⟩

/-! ### Scanner model (`updown_scanner.rs`) -/

/-- Rust `struct UpDownMarket` from `updown_scanner.rs`: the Gamma API
market response.  The `clobTokenIds` field arrives as a JSON-encoded string;
it is modelled here by its parse outcome: `none` stands for an absent field
or an unparseable string (both make `get_token_ids` return `None` in the
source), `some toks` for a successfully parsed token list. -/
structure UpDownMarket where
  id : Nat
  question : String
  slug : String
  clob_token_ids : Option (List String)
  active : Option Bool
  closed : Option Bool
  accepting_orders : Option Bool
  end_date : Option String
  start_date : Option String
  outcomes : Option (List String)
deriving Repr, DecidableEq

/-- Method `UpDownMarket::get_token_ids` from `updown_scanner.rs`: returns
the first two entries of the parsed `clobTokenIds` list when it has at
least two entries (`tokens.len() >= 2` in the source), `None` otherwise. -/
def UpDownMarket.get_token_ids (m : UpDownMarket) : Option (String × String) :=
  match m.clob_token_ids with
  | none => none
  | some tokens =>
    match tokens with
    | a :: b :: _ => some (a, b)
    | _ => none

/-- Method `UpDownMarket::is_active` from `updown_scanner.rs`:
`active.unwrap_or(false) && !closed.unwrap_or(true) && accepting_orders.unwrap_or(false)`. -/
def UpDownMarket.is_active (m : UpDownMarket) : Bool :=
  m.active.getD false && !(m.closed.getD true) && m.accepting_orders.getD false

/-- Method `UpDownMarket::get_asset` from `updown_scanner.rs`: the slug up
to the first dash. -/
def UpDownMarket.get_asset (m : UpDownMarket) : Option String :=
  (m.slug.splitOn "-").head?

/-- Outcome of the single HTTP round trip made by `query_market_by_slug`:
either the send itself fails (timeout, connection error), or a response
arrives with a status (success or not) and a body whose JSON decoding
either succeeds with a list of markets or fails. -/
inductive HttpOutcome where
  | sendFail (e : String)
  | response (is_success : Bool) (body : Except String (List UpDownMarket))

/-- Function `query_market_by_slug` from `updown_scanner.rs`: propagates a
send failure as an error; returns `Ok(None)` when the response status is
not a success; propagates a body-decode failure as an error; otherwise
returns the first market of the decoded list, if any. -/
def query_market_by_slug : HttpOutcome → Except String (Option UpDownMarket)
  | .sendFail e => Except.error e
  | .response is_success body =>
    if !is_success then Except.ok none
    else
      match body with
      | Except.error e => Except.error e
      | Except.ok markets => Except.ok markets.head?

/-- Per-candidate filter of `UpDownScanner::scan_active_markets` from
`updown_scanner.rs` (the match inside the per-slug task): a market becomes
an `ActiveUpDownMarket` only when the query succeeded with a market that
`is_active` and whose `get_token_ids` is `Some`; every other outcome yields
`None`. -/
def scan_candidate (asset slug : String) (end_time : Nat)
    (result : Except String (Option UpDownMarket)) : Option ActiveUpDownMarket :=
  match result with
  | Except.ok (some market) =>
    if market.is_active then
      match market.get_token_ids with
      | some (yes_token, no_token) =>
        some { slug := slug, asset := asset, question := market.question,
               yes_token := yes_token, no_token := no_token,
               end_timestamp := end_time }
      | none => none
    else none
  | Except.ok none => none
  | Except.error _ => none

/-- An active, order-accepting market whose parsed token list has three
entries; `get_token_ids` nevertheless accepts it. -/
def threeTokenMarket : UpDownMarket :=
  { id := 1
    question := "Will BTC go up?"
    slug := "btc-updown-15m-900"
    clob_token_ids := some ["tok-up", "tok-down", "tok-x"]
    active := some true
    closed := some false
    accepting_orders := some true
    end_date := none
    start_date := none
    outcomes := none }

/-- An active, order-accepting market with exactly two token ids. -/
def twoTokenMarket : UpDownMarket :=
  { id := 2
    question := "Will ETH go up?"
    slug := "eth-updown-15m-900"
    clob_token_ids := some ["tok-up", "tok-down"]
    active := some true
    closed := some false
    accepting_orders := some true
    end_date := none
    start_date := none
    outcomes := none }

/-- C3 counterexample: the scan does produce (and hence the store inserts)
a market whose token-id list has three elements, because
`get_token_ids` tests `tokens.len() >= 2`, not `== 2`.  This refutes the
claim that an instrument whose token-id list does not have exactly two
elements is never inserted. -/
theorem scan_candidate_three_token_counterexample :
    ¬ (∀ (m : UpDownMarket) (a s : String) (t : Nat) (am : ActiveUpDownMarket),
        scan_candidate a s t (Except.ok (some m)) = some am →
        ∃ toks, m.clob_token_ids = some toks ∧ toks.length = 2) := by
  intro h
  have h3 := h threeTokenMarket "btc" "btc-updown-15m-900" 900
      ⟨"btc-updown-15m-900", "btc", "Will BTC go up?", "tok-up", "tok-down", 900⟩
      (by decide)
  obtain ⟨toks, htoks, hlen⟩ := h3
  have : toks = ["tok-up", "tok-down", "tok-x"] := by
    simpa [threeTokenMarket] using htoks.symm
  subst this
  simp at hlen

/-- C3 (amended): the scan produces an `ActiveUpDownMarket` exactly when the
query succeeded with a market that passes the active/not-closed/accepting
conjunction and whose parsed token list has at least two entries; the
produced record then carries the first two token ids and the given
slug/asset/end time.  (The original claim required exactly two entries,
which the code does not enforce.) -/
theorem scan_candidate_characterization :
    (∀ m : UpDownMarket, m.is_active = true ↔
        (m.active = some true ∧ m.closed = some false ∧
          m.accepting_orders = some true)) ∧
    (∀ (a s : String) (t : Nat) (r : Except String (Option UpDownMarket))
        (am : ActiveUpDownMarket),
      scan_candidate a s t r = some am ↔
        ∃ m rest, r = Except.ok (some m) ∧ m.is_active = true ∧
          m.clob_token_ids = some (am.yes_token :: am.no_token :: rest) ∧
          am.slug = s ∧ am.asset = a ∧ am.question = m.question ∧
          am.end_timestamp = t) := by
  constructor
  · intro m
    constructor
    · intro h
      simp only [UpDownMarket.is_active, Bool.and_eq_true,
        Bool.not_eq_true'] at h
      obtain ⟨⟨h1, h2⟩, h3⟩ := h
      refine ⟨?_, ?_, ?_⟩
      · rcases ha : m.active with _ | b
        · rw [ha] at h1; simp at h1
        · rw [ha] at h1; simp at h1; rw [h1]
      · rcases hc : m.closed with _ | b
        · rw [hc] at h2; simp at h2
        · rw [hc] at h2; simp at h2; rw [h2]
      · rcases ho : m.accepting_orders with _ | b
        · rw [ho] at h3; simp at h3
        · rw [ho] at h3; simp at h3; rw [h3]
    · rintro ⟨h1, h2, h3⟩
      simp [UpDownMarket.is_active, h1, h2, h3]
  · intro a s t r am
    obtain ⟨aslug, aasset, aq, ay, an, aend⟩ := am
    rcases r with e | mo
    · simp [scan_candidate]
    rcases mo with _ | m
    · simp [scan_candidate]
    rcases hact : m.is_active with _ | _
    · simp only [scan_candidate, hact, Bool.false_eq_true, if_false]
      constructor
      · rintro ⟨⟩
      · rintro ⟨m', rest, hm', hact', -⟩
        obtain rfl : m = m' := by simpa using hm'
        rw [hact] at hact'; exact absurd hact' (by simp)
    · rcases hclob : m.clob_token_ids with _ | toks
      · simp only [scan_candidate, hact, if_true, UpDownMarket.get_token_ids,
          hclob]
        constructor
        · rintro ⟨⟩
        · rintro ⟨m', rest, hm', -, hclob', -⟩
          obtain rfl : m = m' := by simpa using hm'
          rw [hclob] at hclob'; exact absurd hclob' (by simp)
      · rcases toks with _ | ⟨x, toks⟩
        · simp only [scan_candidate, hact, if_true, UpDownMarket.get_token_ids,
            hclob]
          constructor
          · rintro ⟨⟩
          · rintro ⟨m', rest, hm', -, hclob', -⟩
            obtain rfl : m = m' := by simpa using hm'
            rw [hclob] at hclob'; exact absurd hclob' (by simp)
        · rcases toks with _ | ⟨y, toks⟩
          · simp only [scan_candidate, hact, if_true, UpDownMarket.get_token_ids,
              hclob]
            constructor
            · rintro ⟨⟩
            · rintro ⟨m', rest, hm', -, hclob', -⟩
              obtain rfl : m = m' := by simpa using hm'
              rw [hclob] at hclob'; exact absurd hclob' (by simp)
          · simp only [scan_candidate, hact, if_true, UpDownMarket.get_token_ids,
              hclob, Option.some.injEq, ActiveUpDownMarket.mk.injEq]
            constructor
            · rintro ⟨rfl, rfl, rfl, rfl, rfl, rfl⟩
              exact ⟨m, toks, rfl, hact, by simpa using hclob, rfl, rfl, rfl, rfl⟩
            · rintro ⟨m', rest, hm', -, hclob', rfl, rfl, hq, rfl⟩
              obtain rfl : m = m' := by simpa using hm'
              rw [hclob] at hclob'
              obtain ⟨rfl, rfl, rfl⟩ :
                  x = ay ∧ y = an ∧ toks = rest := by simpa using hclob'
              exact ⟨rfl, rfl, hq.symm, rfl, rfl, rfl⟩

/-- Witness for C3's amended theorem: the two-token active market is
produced by the scan with its two token ids. -/
theorem scan_candidate_characterization_witness :
    scan_candidate "eth" "eth-updown-15m-900" 900
        (Except.ok (some twoTokenMarket))
      = some ⟨"eth-updown-15m-900", "eth", "Will ETH go up?",
          "tok-up", "tok-down", 900⟩ :=
  (scan_candidate_characterization.2 "eth" "eth-updown-15m-900" 900
      (Except.ok (some twoTokenMarket)) _).mpr
    ⟨twoTokenMarket, [], rfl, by decide, by decide, rfl, rfl, rfl, rfl⟩

/-- C4 counterexample: a response with a non-success HTTP status is mapped
to `Ok(None)` — the NotFound outcome — rather than reported as an error,
even when its body is malformed; this refutes the claim that a non-success
status is reported to the caller as an error and that NotFound is returned
only on a successful empty result. -/
theorem query_market_by_slug_counterexample :
    query_market_by_slug (HttpOutcome.response false (Except.error "bad json"))
      = Except.ok none := rfl

/-- C4 (amended): the lookup distinguishes its outcomes as follows — an
error is returned exactly when the send fails (timeout) or when a
successful response has a malformed body; NotFound (`Ok(None)`) is
returned exactly when the status is a non-success or the venue answers
successfully with an empty list; a market is returned exactly when the
venue answers successfully with a non-empty list (its first element).  No
retry happens inside the lookup: each outcome is a function of the single
HTTP round trip. -/
theorem query_market_by_slug_outcomes (o : HttpOutcome) :
    ((∃ e, query_market_by_slug o = Except.error e) ↔
      (∃ e, o = HttpOutcome.sendFail e) ∨
        (∃ e, o = HttpOutcome.response true (Except.error e))) ∧
    (query_market_by_slug o = Except.ok none ↔
      (∃ b, o = HttpOutcome.response false b) ∨
        o = HttpOutcome.response true (Except.ok [])) ∧
    (∀ m, query_market_by_slug o = Except.ok (some m) ↔
      ∃ ms, o = HttpOutcome.response true (Except.ok ms) ∧
        ms.head? = some m) := by
  rcases o with e | ⟨ok, body⟩
  · simp [query_market_by_slug]
  · rcases ok with _ | _
    · simp [query_market_by_slug]
    · rcases body with e | ms
      · simp [query_market_by_slug]
      · rcases ms with _ | ⟨m0, ms⟩ <;> simp [query_market_by_slug]

/-- Witness for C4's amended theorem: a successful response whose decoded
list holds one market returns that market. -/
theorem query_market_by_slug_outcomes_witness :
    query_market_by_slug
        (HttpOutcome.response true (Except.ok [twoTokenMarket]))
      = Except.ok (some twoTokenMarket) :=
  ((query_market_by_slug_outcomes
      (HttpOutcome.response true (Except.ok [twoTokenMarket]))).2.2
    twoTokenMarket).mpr ⟨[twoTokenMarket], rfl, rfl⟩

/-! ### Execution engine model (`execute_arb` in `updown_bot.rs`) -/

/-- Fill result returned by the external order client's `buy_ioc`. -/
structure Fill where
  filled_size : ℚ
  fill_cost : ℚ
  order_id : String
deriving Repr, DecidableEq

/-- Fill record forwarded to the position tracker, with the fields in the
order of `FillRecord::new`'s arguments in `execute_arb`. -/
structure FillRecord where
  market_id : String
  description : String
  platform : String
  side : String
  contracts : ℚ
  price : ℚ
  fees : ℚ
  order_id : String
deriving Repr, DecidableEq

/-- Observable outcome of one `execute_arb` call: whether the order
submission step was reached, which fill records were forwarded to the
position channel, the computed total cost and realized profit (when both
legs succeeded), the side named by the unmatched-exposure warning (when
raised), and the error reported (when a leg failed). -/
structure ExecReport where
  orders_submitted : Bool
  fills : List FillRecord
  total_cost : Option ℚ
  actual_profit : Option ℚ
  unmatched_side : Option String
  reported_error : Option String
deriving Repr, DecidableEq

/-- Reconciliation step of `execute_arb` from `updown_bot.rs` (the match on
the two joined leg results, in live mode).  Both legs ok: total cost is the
sum of the fill costs, profit is the smaller filled size minus the total
cost, both fill records are forwarded (question as id, zero fees), and the
unmatched warning names YES when the yes leg filled strictly more, NO
otherwise, exactly when the absolute fill-size difference exceeds 0.5.
Any leg in error: the (yes-first) error is reported and nothing is
forwarded. -/
def reconcile (st : MarketState) (yes_result no_result : Except String Fill) :
    ExecReport :=
  match yes_result, no_result with
  | Except.ok yes_fill, Except.ok no_fill =>
    let total_cost := yes_fill.fill_cost + no_fill.fill_cost
    let actual_profit := min yes_fill.filled_size no_fill.filled_size - total_cost
    let fill_yes : FillRecord :=
      { market_id := st.question, description := st.question,
        platform := "polymarket", side := "yes",
        contracts := yes_fill.filled_size, price := st.yes_price,
        fees := 0, order_id := yes_fill.order_id }
    let fill_no : FillRecord :=
      { market_id := st.question, description := st.question,
        platform := "polymarket", side := "no",
        contracts := no_fill.filled_size, price := st.no_price,
        fees := 0, order_id := no_fill.order_id }
    let unmatched := |yes_fill.filled_size - no_fill.filled_size|
    { orders_submitted := true
      fills := [fill_yes, fill_no]
      total_cost := some total_cost
      actual_profit := some actual_profit
      unmatched_side :=
        if 1 / 2 < unmatched then
          some (if no_fill.filled_size < yes_fill.filled_size then "YES" else "NO")
        else none
      reported_error := none }
  | Except.error e, _ =>
    { orders_submitted := true, fills := [], total_cost := none,
      actual_profit := none, unmatched_side := none, reported_error := some e }
  | _, Except.error e =>
    { orders_submitted := true, fills := [], total_cost := none,
      actual_profit := none, unmatched_side := none, reported_error := some e }

/-- Function `execute_arb` from `updown_bot.rs`.  In dry-run mode it
returns before the submission step; otherwise it submits both legs and
reconciles the joined results.  The Rust function's `Result<()>` has no
error path after the dry-run check (every branch falls through to
`Ok(())`), which the `Except.ok` on every branch reflects; the two leg
results stand for the joined `buy_ioc` outcomes. -/
def execute_arb (dry_run : Bool) (st : MarketState)
    (yes_result no_result : Except String Fill) : Except String ExecReport :=
  if dry_run then
    Except.ok { orders_submitted := false, fills := [], total_cost := none,
                actual_profit := none, unmatched_side := none,
                reported_error := none }
  else
    Except.ok (reconcile st yes_result no_result)

/-- Reading of the `DRY_RUN` environment variable in `main`
(`updown_bot.rs`): `std::env::var("DRY_RUN").map(|v| v == "1" || v == "true").unwrap_or(true)`.
`none` stands for an unset (or non-unicode) variable. -/
def dry_run_from_env (v : Option String) : Bool :=
  (v.map (fun s => s == "1" || s == "true")).getD true

/-- C5: when both legs succeed, total cost is the sum of the two legs' fill
costs, realized profit is the smaller filled size minus the total cost,
and the unmatched-exposure warning is raised exactly when the filled sizes
differ by more than 0.5, naming the strictly over-filled side. -/
theorem reconcile_both_legs_ok (st : MarketState) (yf nf : Fill) :
    (reconcile st (Except.ok yf) (Except.ok nf)).total_cost
        = some (yf.fill_cost + nf.fill_cost) ∧
    (reconcile st (Except.ok yf) (Except.ok nf)).actual_profit
        = some (min yf.filled_size nf.filled_size
            - (yf.fill_cost + nf.fill_cost)) ∧
    ((reconcile st (Except.ok yf) (Except.ok nf)).unmatched_side ≠ none ↔
        1 / 2 < |yf.filled_size - nf.filled_size|) ∧
    (∀ sd, (reconcile st (Except.ok yf) (Except.ok nf)).unmatched_side
          = some sd →
        (sd = "YES" ∧ nf.filled_size < yf.filled_size) ∨
          (sd = "NO" ∧ yf.filled_size < nf.filled_size)) := by
  refine ⟨rfl, rfl, ?_, ?_⟩
  · show (if 1 / 2 < |yf.filled_size - nf.filled_size| then _ else none) ≠ none
      ↔ _
    by_cases h : 1 / 2 < |yf.filled_size - nf.filled_size|
    · rw [if_pos h]
      exact ⟨fun _ => h, fun _ => by simp⟩
    · rw [if_neg h]
      exact ⟨fun hc => absurd rfl hc, fun hc => absurd hc h⟩
  · intro sd hsd
    revert hsd
    show (if 1 / 2 < |yf.filled_size - nf.filled_size| then
        some (if nf.filled_size < yf.filled_size then "YES" else "NO")
      else none) = some sd → _
    split_ifs with h hlt
    · rintro ⟨⟩
      exact Or.inl ⟨rfl, hlt⟩
    · rintro ⟨⟩
      refine Or.inr ⟨rfl, ?_⟩
      rcases lt_trichotomy yf.filled_size nf.filled_size with h' | h' | h'
      · exact h'
      · rw [h'] at h; simp at h
        exact absurd h (by norm_num)
      · exact absurd h' hlt
    · rintro ⟨⟩

/-- Witness for C5 at the spec's scenario: fills of 40 (yes) and 38 (no)
differ by 2 > 0.5, so the warning names the YES side. -/
theorem reconcile_both_legs_ok_witness :
    (reconcile (MarketState.mk "btc" "q" "ty" "tn" (28/100) (66/100) 40 60 0)
        (Except.ok (Fill.mk 40 (112/10) "oy"))
        (Except.ok (Fill.mk 38 (2508/100) "on"))).unmatched_side
      = some "YES" := by
  have h := reconcile_both_legs_ok
      (MarketState.mk "btc" "q" "ty" "tn" (28/100) (66/100) 40 60 0)
      (Fill.mk 40 (112/10) "oy") (Fill.mk 38 (2508/100) "on")
  have hne := h.2.2.1.mpr (by norm_num)
  rcases hu : (reconcile (MarketState.mk "btc" "q" "ty" "tn" (28/100) (66/100) 40 60 0)
      (Except.ok (Fill.mk 40 (112/10) "oy"))
      (Except.ok (Fill.mk 38 (2508/100) "on"))).unmatched_side with _ | sd
  · exact absurd hu hne
  · rcases h.2.2.2 sd hu with ⟨rfl, -⟩ | ⟨rfl, hlt⟩
    · rfl
    · exact absurd hlt (by norm_num)

/-- C6: when at least one leg fails, `execute_arb` still returns
successfully, forwards no fill record for either leg, raises no
unmatched-exposure warning, and reports the error of a failed leg; no
retry or unwind appears in the outcome. -/
theorem execute_arb_leg_failure (st : MarketState)
    (yr nr : Except String Fill)
    (h : (∃ e, yr = Except.error e) ∨ (∃ e, nr = Except.error e)) :
    execute_arb false st yr nr = Except.ok (reconcile st yr nr) ∧
    (reconcile st yr nr).fills = [] ∧
    (reconcile st yr nr).unmatched_side = none ∧
    ∃ e, (reconcile st yr nr).reported_error = some e ∧
      (yr = Except.error e ∨ nr = Except.error e) := by
  refine ⟨rfl, ?_⟩
  rcases yr with e | yf
  · rcases nr with e2 | nf
    · exact ⟨rfl, rfl, e, rfl, Or.inl rfl⟩
    · exact ⟨rfl, rfl, e, rfl, Or.inl rfl⟩
  · rcases nr with e | nf
    · exact ⟨rfl, rfl, e, rfl, Or.inr rfl⟩
    · rcases h with ⟨e, he⟩ | ⟨e, he⟩ <;> exact absurd he (by simp)

/-- Witness for C6: with the yes leg failing and the no leg filling, the
call returns ok, forwards nothing and reports the yes leg's error. -/
theorem execute_arb_leg_failure_witness :
    (reconcile (MarketState.mk "btc" "q" "ty" "tn" (28/100) (66/100) 40 60 0)
        (Except.error "order rejected")
        (Except.ok (Fill.mk 38 (2508/100) "on"))).fills = [] ∧
    (reconcile (MarketState.mk "btc" "q" "ty" "tn" (28/100) (66/100) 40 60 0)
        (Except.error "order rejected")
        (Except.ok (Fill.mk 38 (2508/100) "on"))).reported_error
      = some "order rejected" :=
  ⟨(execute_arb_leg_failure _ _ _ (Or.inl ⟨"order rejected", rfl⟩)).2.1,
    by
      obtain ⟨-, -, -, e, he, hor⟩ := execute_arb_leg_failure
        (MarketState.mk "btc" "q" "ty" "tn" (28/100) (66/100) 40 60 0)
        (Except.error "order rejected")
        (Except.ok (Fill.mk 38 (2508/100) "on"))
        (Or.inl ⟨"order rejected", rfl⟩)
      rcases hor with h1 | h1
      · obtain rfl : e = "order rejected" := by simpa using h1.symm
        exact he
      · exact absurd h1 (by simp)⟩

/-- C10: dry-run is determined solely by the `DRY_RUN` variable — unset
defaults to dry-run; when set, dry-run holds iff the value is exactly `1`
or exactly `true` (so `yes`, `True`, `on` all select live execution) — and
in dry-run mode `execute_arb` returns before the submission step with no
fills forwarded. -/
theorem dry_run_determination :
    dry_run_from_env none = true ∧
    (∀ s, dry_run_from_env (some s) = true ↔ (s = "1" ∨ s = "true")) ∧
    dry_run_from_env (some "yes") = false ∧
    dry_run_from_env (some "True") = false ∧
    dry_run_from_env (some "on") = false ∧
    (∀ (st : MarketState) (yr nr : Except String Fill),
      execute_arb true st yr nr
        = Except.ok { orders_submitted := false, fills := [],
                      total_cost := none, actual_profit := none,
                      unmatched_side := none, reported_error := none }) := by
  refine ⟨rfl, ?_, by decide, by decide, by decide, fun st yr nr => rfl⟩
  intro s
  simp [dry_run_from_env]

/-- Witness for C10: setting `DRY_RUN=true` selects dry-run mode. -/
theorem dry_run_determination_witness :
    dry_run_from_env (some "true") = true :=
  (dry_run_determination.2.1 "true").mpr (Or.inr rfl)

/-! ### Feed processing and the shared store (`updown_bot.rs`) -/

/-- Rust `struct PriceLevel` from `updown_bot.rs`: one order-book level,
whose `price` and `size` arrive as decimal strings; each field is modelled
by its parse outcome (`none` = the string did not parse as a number). -/
structure PriceLevel where
  price : Option ℚ
  size : Option ℚ
deriving Repr, DecidableEq

/-- Rust `struct BookSnapshot` from `updown_bot.rs`: a WebSocket book
snapshot naming an asset (token) id with bid and ask levels. -/
structure BookSnapshot where
  asset_id : String
  bids : List PriceLevel
  asks : List PriceLevel
deriving Repr, DecidableEq

/-- The `filter_map` closure inside `process_book`: keep a level only when
both strings parse and both values are strictly positive. -/
def parsed_level (l : PriceLevel) : Option (ℚ × ℚ) :=
  match l.price, l.size with
  | some price, some size =>
    if 0 < price ∧ 0 < size then some (price, size) else none
  | _, _ => none

/-- Best-ask computation of `process_book`: the first level of minimal
price among the valid levels (`min_by` returns the first of equally
minimal elements), or `none` when no valid level exists — the source
encodes the empty case as `(0.0, 0.0)` via `unwrap_or` and returns early
on a zero price, which is equivalent because every kept price is
positive. -/
def best_ask (asks : List PriceLevel) : Option (ℚ × ℚ) :=
  (asks.filterMap parsed_level).foldl
    (fun acc level =>
      match acc with
      | none => some level
      | some best => if level.1 < best.1 then some level else some best)
    none

/-- Store-update loop of `process_book`: walk the records, update the yes
side of the first record whose `yes_token` matches the asset id (or the no
side on a `no_token` match), re-check `has_arb` on the updated record and
return a detached copy when it triggers, then stop (`break`); records the
loop never reaches are returned unchanged.  The `HashMap` iteration is
modelled as an association list walked in order. -/
def update_store (asset_id : String) (ask : ℚ × ℚ) (now : Nat) :
    List (String × MarketState) → List (String × MarketState) × Option MarketState
  | [] => ([], none)
  | (k, s) :: rest =>
    if s.yes_token = asset_id then
      let s' := { s with yes_price := ask.1, yes_size := ask.2, last_update := now }
      ((k, s') :: rest, if s'.has_arb then some s' else none)
    else if s.no_token = asset_id then
      let s' := { s with no_price := ask.1, no_size := ask.2, last_update := now }
      ((k, s') :: rest, if s'.has_arb then some s' else none)
    else
      let r := update_store asset_id ask now rest
      ((k, s) :: r.1, r.2)

/-- Function `process_book` from `updown_bot.rs`, up to the release of the
store lock: compute the best ask (returning with the store untouched and
no trigger when no valid level exists), otherwise update the matching
record's side, returning the new store and the detached state snapshot
when the update triggered the arbitrage check. -/
def process_book (store : List (String × MarketState)) (book : BookSnapshot)
    (now : Nat) : List (String × MarketState) × Option MarketState :=
  match best_ask book.asks with
  | none => (store, none)
  | some ask => update_store book.asset_id ask now store

/-- Retirement step of the scanner task in `updown_bot.rs` (`map.retain`):
keep exactly the records whose key is neither the yes token nor the no
token of any just-expired market. -/
def retire_expired (expired : List ActiveUpDownMarket)
    (store : List (String × MarketState)) : List (String × MarketState) :=
  store.filter
    (fun p => ! expired.any (fun m => m.yes_token == p.1 || m.no_token == p.1))

/-- C8: retirement removes exactly the records whose key is a yes or no
token of some expired market, keeps every other record as-is and in order
(the result is a sublist of the store), and is idempotent. -/
theorem retirement_exact (expired : List ActiveUpDownMarket)
    (store : List (String × MarketState)) :
    (∀ k s, ((k, s) ∈ retire_expired expired store ↔
      (k, s) ∈ store ∧ ∀ m ∈ expired, m.yes_token ≠ k ∧ m.no_token ≠ k)) ∧
    (retire_expired expired store).Sublist store ∧
    retire_expired expired (retire_expired expired store)
      = retire_expired expired store := by
  refine ⟨?_, List.filter_sublist _, ?_⟩
  · intro k s
    simp [retire_expired, List.mem_filter, List.any_eq_true, not_or]
  · apply List.filter_eq_self.mpr
    intro p hp
    exact (List.mem_filter.mp hp).2

/-- Witness for C8: retiring the same expired set twice from a concrete
store yields the same store as retiring it once. -/
theorem retirement_exact_witness :
    retire_expired
        [ActiveUpDownMarket.mk "sl" "btc" "q" "a1" "a2" 900]
        (retire_expired
          [ActiveUpDownMarket.mk "sl" "btc" "q" "a1" "a2" 900]
          [("a1", MarketState.mk "btc" "q" "a1" "a2" 0 0 0 0 0),
           ("b1", MarketState.mk "eth" "r" "b1" "b2" 0 0 0 0 0)])
      = retire_expired
          [ActiveUpDownMarket.mk "sl" "btc" "q" "a1" "a2" 900]
          [("a1", MarketState.mk "btc" "q" "a1" "a2" 0 0 0 0 0),
           ("b1", MarketState.mk "eth" "r" "b1" "b2" 0 0 0 0 0)] :=
  (retirement_exact _ _).2.2

/-- Frame relation between a store record before and after one
`process_book` call for asset id `asset_id`: the key and the identity
fields never change; a record containing `asset_id` as neither token is
returned exactly as it was; a record matched on its yes token keeps its
no-side price and size (and symmetrically for a no-token match). -/
def record_frame (asset_id : String) (p p' : String × MarketState) : Prop :=
  p'.1 = p.1 ∧
  p'.2.asset = p.2.asset ∧
  p'.2.question = p.2.question ∧
  p'.2.yes_token = p.2.yes_token ∧
  p'.2.no_token = p.2.no_token ∧
  (p.2.yes_token ≠ asset_id → p.2.no_token ≠ asset_id → p' = p) ∧
  (p.2.yes_token = asset_id →
    p'.2.no_price = p.2.no_price ∧ p'.2.no_size = p.2.no_size) ∧
  (p.2.yes_token ≠ asset_id → p.2.no_token = asset_id →
    p'.2.yes_price = p.2.yes_price ∧ p'.2.yes_size = p.2.yes_size)

lemma record_frame_refl (asset_id : String) (p : String × MarketState) :
    record_frame asset_id p p :=
  ⟨rfl, rfl, rfl, rfl, rfl, fun _ _ => rfl, fun _ => ⟨rfl, rfl⟩,
    fun _ _ => ⟨rfl, rfl⟩⟩

lemma forall2_record_frame_refl (asset_id : String) :
    ∀ l : List (String × MarketState), List.Forall₂ (record_frame asset_id) l l := by
  intro l
  induction l with
  | nil => exact List.Forall₂.nil
  | cons p rest ih => exact List.Forall₂.cons (record_frame_refl asset_id p) ih

lemma update_store_no_match (asset_id : String) (ask : ℚ × ℚ) (now : Nat) :
    ∀ store : List (String × MarketState),
      (∀ p ∈ store, p.2.yes_token ≠ asset_id ∧ p.2.no_token ≠ asset_id) →
      update_store asset_id ask now store = (store, none) := by
  intro store
  induction store with
  | nil => intro _; rfl
  | cons p rest ih =>
    intro hall
    obtain ⟨k, s⟩ := p
    have hh := hall (k, s) (List.mem_cons_self _ _)
    have ht := ih (fun q hq => hall q (List.mem_cons_of_mem _ hq))
    simp only [update_store, if_neg hh.1, if_neg hh.2, ht]

lemma update_store_forall2 (asset_id : String) (ask : ℚ × ℚ) (now : Nat) :
    ∀ store : List (String × MarketState),
      List.Forall₂ (record_frame asset_id) store
        (update_store asset_id ask now store).1 := by
  intro store
  induction store with
  | nil => exact List.Forall₂.nil
  | cons p rest ih =>
    obtain ⟨k, s⟩ := p
    by_cases h1 : s.yes_token = asset_id
    · show List.Forall₂ (record_frame asset_id) ((k, s) :: rest)
        (update_store asset_id ask now ((k, s) :: rest)).1
      simp only [update_store, if_pos h1]
      refine List.Forall₂.cons ?_ (forall2_record_frame_refl asset_id rest)
      exact ⟨rfl, rfl, rfl, rfl, rfl, fun hny _ => absurd h1 hny,
        fun _ => ⟨rfl, rfl⟩, fun hny _ => absurd h1 hny⟩
    · by_cases h2 : s.no_token = asset_id
      · simp only [update_store, if_neg h1, if_pos h2]
        refine List.Forall₂.cons ?_ (forall2_record_frame_refl asset_id rest)
        exact ⟨rfl, rfl, rfl, rfl, rfl, fun _ hnn => absurd h2 hnn,
          fun hy => absurd hy h1, fun _ _ => ⟨rfl, rfl⟩⟩
      · simp only [update_store, if_neg h1, if_neg h2]
        exact List.Forall₂.cons (record_frame_refl asset_id (k, s)) ih

/-- C7: one `process_book` call changes at most the matched side of the
record containing the snapshot's asset id (key and identity fields are
preserved for every record, a record matched on its yes token keeps its
no-side fields and symmetrically, every unmatched record is returned
exactly as it was, and no record is created or destroyed — the result is
`Forall₂`-related, hence of equal length); and when the asset id matches
no record's yes or no token the store is returned entirely unchanged with
no arbitrage trigger. -/
theorem process_book_frame (store : List (String × MarketState))
    (book : BookSnapshot) (now : Nat) :
    ((∀ p ∈ store,
        p.2.yes_token ≠ book.asset_id ∧ p.2.no_token ≠ book.asset_id) →
      process_book store book now = (store, none)) ∧
    List.Forall₂ (record_frame book.asset_id) store
      (process_book store book now).1 := by
  constructor
  · intro hall
    unfold process_book
    cases hba : best_ask book.asks with
    | none => rfl
    | some ask => exact update_store_no_match _ _ _ _ hall
  · unfold process_book
    cases hba : best_ask book.asks with
    | none => exact forall2_record_frame_refl _ _
    | some ask => exact update_store_forall2 _ _ _ _

/-- Witness for C7: a book snapshot for a token tracked by no record
leaves a concrete two-record store unchanged and triggers nothing. -/
theorem process_book_frame_witness :
    process_book
        [("k1", MarketState.mk "btc" "q" "a1" "a2" 0 0 0 0 0),
         ("k2", MarketState.mk "eth" "r" "b1" "b2" 0 0 0 0 0)]
        (BookSnapshot.mk "zz" [] [PriceLevel.mk (some (1/4)) (some 10)]) 7
      = ([("k1", MarketState.mk "btc" "q" "a1" "a2" 0 0 0 0 0),
          ("k2", MarketState.mk "eth" "r" "b1" "b2" 0 0 0 0 0)], none) :=
  (process_book_frame _ _ 7).1 (by decide)

/-! ### Lock/submission ordering in `process_book` (C9) -/

/-- Store-access events along one `process_book` call, in program order:
taking and dropping the store's write lock, and submitting one
immediate-or-cancel order over the network. -/
inductive StoreEvent where
  | acquire
  | release
  | submit_order (token : String)
deriving Repr, DecidableEq

/-- Order submissions performed by `execute_arb`: none in dry-run mode,
otherwise the two concurrently awaited `buy_ioc` calls. -/
def execute_arb_events (dry_run : Bool) (st : MarketState) : List StoreEvent :=
  if dry_run then []
  else [StoreEvent.submit_order st.yes_token, StoreEvent.submit_order st.no_token]

/-- Event trace of one `process_book` call, linearizing its control flow:
early return without touching the lock when no valid ask level exists;
otherwise `markets.write()`, the in-memory update, `drop(map)`, and only
then — when the update triggered — the `execute_arb` submissions. -/
def process_book_events (store : List (String × MarketState))
    (book : BookSnapshot) (now : Nat) (dry_run : Bool) : List StoreEvent :=
  match best_ask book.asks with
  | none => []
  | some ask =>
    [StoreEvent.acquire, StoreEvent.release] ++
      (match (update_store book.asset_id ask now store).2 with
       | some st => execute_arb_events dry_run st
       | none => [])

/-- Scan of an event trace keeping the current lock depth: true iff every
order submission happens at lock depth zero. -/
def no_submit_while_locked : Nat → List StoreEvent → Bool
  | _, [] => true
  | d, StoreEvent.acquire :: rest => no_submit_while_locked (d + 1) rest
  | d, StoreEvent.release :: rest => no_submit_while_locked (d - 1) rest
  | d, StoreEvent.submit_order _ :: rest =>
    d == 0 && no_submit_while_locked d rest

/-- C9: in every `process_book` call, every order submission of the
arbitrage execution happens with the store lock already released — the
lock is held only for the in-memory read/write and never across the
network calls. -/
theorem process_book_lock_released_before_submission
    (store : List (String × MarketState)) (book : BookSnapshot) (now : Nat)
    (dry_run : Bool) :
    no_submit_while_locked 0 (process_book_events store book now dry_run)
      = true := by
  unfold process_book_events
  cases hba : best_ask book.asks with
  | none => rfl
  | some ask =>
    show no_submit_while_locked 0
        ([StoreEvent.acquire, StoreEvent.release] ++
          (match (update_store book.asset_id ask now store).2 with
           | some st => execute_arb_events dry_run st
           | none => [])) = true
    cases hupd : (update_store book.asset_id ask now store).2 with
    | none => rfl
    | some st =>
      cases dry_run <;> rfl

/-- Witness for C9 at a concrete store and book snapshot. -/
theorem process_book_lock_released_before_submission_witness :
    no_submit_while_locked 0
        (process_book_events
          [("a1", MarketState.mk "btc" "q" "a1" "a2" 0 0 0 0 0)]
          (BookSnapshot.mk "a1" [] [PriceLevel.mk (some (1/4)) (some 10)])
          7 false)
      = true :=
  process_book_lock_released_before_submission _ _ 7 false

end UpDownBot
